import Mathlib

/-!
Formal model of the web/WiFi subsystem of LenShustek/GeneratorController
(src/controller/genwifiserver.cpp, with constants from generator.h,
generator_hw.h and Wifi_names.h), together with theorems checking the
natural-language specification's claims against it.

Modelling conventions:
* C byte strings are `List Nat` (byte values) or `List Char`; machine
  integers are `Int`/`Nat` (the code never overflows in the modelled
  paths except where noted explicitly);
* the static output buffer of `expand_arrows_and_blanks` is modelled as a
  growable byte list written through an explicit destination cursor, so
  that overwrites of previously written bytes are reproduced exactly;
* the loop of `add_IP_address` is modelled by a structurally recursive
  scan carrying the loop locals `empty_ndx`, `min_ndx`, `min_count`;
  the out-of-bounds write `clients[-1]` that the C code performs when
  `min_ndx` stays `-1` is modelled as `Option.none`;
* `process_web` is modelled as a step function from a state (the file's
  globals) and a per-cycle input (readings of `now()`, `millis()`,
  `WiFi.status()`, `server.available()`, the IFTTT trigger flag, and the
  power predicate) to a new state plus an externally visible action.
  The call to `process_client_request` inside the `WEB_AWAITING_CLIENT`
  arm is abstracted by the input bit `request_defers` (did the request
  queue a button push, leaving `delayed_response` armed); the request
  processing itself is modelled separately below.
* `scan_key` / `scan_int` are declared in generator.h but live in the
  excluded main module; the body-field and route scanners below are
  modelled from the spec as marked.
-/

/-! ### Constants from generator.h / generator_hw.h / Wifi_names.h / genwifiserver.cpp -/

def MAX_IP_ADDRESSES : Nat := 25

def CONNECT_DELAY_SECS : Nat := 10

def MAX_CONNECT_ATTEMPTS : Nat := 3

def DELAYED_RSP_MSEC : Nat := 1000

def NUM_BUTTONS : Nat := 7

def INT_MAX : Int := 2147483647

/-- Byte value of the private DOWNARROW glyph "\x01". -/
def DOWNARROW : Nat := 0x01

/-- Byte value of the private UPARROW glyph "\x02". -/
def UPARROW : Nat := 0x02

/-- Byte value of the RIGHTARROW glyph "\x7e". -/
def RIGHTARROW : Nat := 0x7e

/-- Byte value of the LEFTARROW glyph "\x7f". -/
def LEFTARROW : Nat := 0x7f

/-- Byte value of the blank character. -/
def BLANKBYTE : Nat := 0x20

/-! ### expand_arrows_and_blanks (genwifiserver.cpp lines 131-148)

The C function writes into a static buffer through a destination pointer
`dst`.  Each arrow glyph is written with `strcpy(dst, "&#8592;")` (seven
characters plus a NUL) followed by `dst += 6`, and each blank with
`strcpy(dst, "&nbsp;")` (six characters plus a NUL) followed by
`dst += 5`; a plain character is `*dst++ = *src`.  After the loop,
`*dst = 0` terminates the C string.  Because the pointer advances by one
less than the number of characters each entity-strcpy wrote, the next
write lands on the entity's final semicolon.  We reproduce this exactly:
`storeBytes buf pos s` overwrites/extends the buffer at position `pos`. -/

def storeBytes (buf : List Nat) (pos : Nat) (s : List Nat) : List Nat :=
  buf.take pos ++ s ++ buf.drop (pos + s.length)

/-- Bytes of the literal "&#8592;" (left arrow entity), with NUL for strcpy. -/
def ent_left : List Nat := [38, 35, 56, 53, 57, 50, 59, 0]

/-- Bytes of the literal "&#8593;" (up arrow entity), with NUL for strcpy. -/
def ent_up : List Nat := [38, 35, 56, 53, 57, 51, 59, 0]

/-- Bytes of the literal "&#8594;" (right arrow entity), with NUL for strcpy. -/
def ent_right : List Nat := [38, 35, 56, 53, 57, 52, 59, 0]

/-- Bytes of the literal "&#8595;" (down arrow entity), with NUL for strcpy. -/
def ent_down : List Nat := [38, 35, 56, 53, 57, 53, 59, 0]

/-- Bytes of the literal "&nbsp;" (non-breaking space entity), with NUL. -/
def ent_nbsp : List Nat := [38, 110, 98, 115, 112, 59, 0]

/-- The character loop of expand_arrows_and_blanks: walks the source
bytes, copying each expansion into the buffer at the cursor and bumping
the cursor by the amounts the C code uses (6, 6, 6, 6, 5, 1). -/
def expand_loop : List Nat → List Nat → Nat → List Nat × Nat
  | [], buf, dst => (buf, dst)
  | c :: rest, buf, dst =>
    if c = LEFTARROW then expand_loop rest (storeBytes buf dst ent_left) (dst + 6)
    else if c = UPARROW then expand_loop rest (storeBytes buf dst ent_up) (dst + 6)
    else if c = RIGHTARROW then expand_loop rest (storeBytes buf dst ent_right) (dst + 6)
    else if c = DOWNARROW then expand_loop rest (storeBytes buf dst ent_down) (dst + 6)
    else if c = BLANKBYTE then expand_loop rest (storeBytes buf dst ent_nbsp) (dst + 5)
    else expand_loop rest (storeBytes buf dst [c]) (dst + 1)

/-- expand_arrows_and_blanks: run the loop, write the terminating NUL at
the final cursor, and read the result back as a C string (bytes up to
the first NUL). -/
def expand_arrows_and_blanks (msg : List Nat) : List Nat :=
  let r := expand_loop msg [] 0
  (storeBytes r.1 r.2 [0]).takeWhile (fun b => b != 0)

/-! ### The visitor registry: struct client_t and add_IP_address
(genwifiserver.cpp lines 150-163) -/

/-- struct client_t: history of the clients whose web browsers made
requests.  The IP address is modelled as a single number. -/
structure client_t where
  ip_address : Nat
  count : Int
  gave_password : Bool
deriving DecidableEq

/-- Default client record (the zero-initialized global array slot). -/
def client0 : client_t := ⟨0, 0, false⟩

/-- The loop of add_IP_address, carrying the loop locals.  `ndx` is the
absolute index of the head of `rest`; returns the early-return index (if
the address matched) together with the final values of `empty_ndx`,
`min_ndx` and `min_count`.  Note the strict `<` against `min_count`
(initially INT_MAX) and that `empty_ndx` keeps the last empty slot seen. -/
def add_scan (addr : Nat) : List client_t → Nat → Int → Int → Int →
    Option Nat × Int × Int × Int
  | [], _, empty_ndx, min_ndx, min_count => (none, empty_ndx, min_ndx, min_count)
  | c :: rest, ndx, empty_ndx, min_ndx, min_count =>
    if c.ip_address = addr then (some ndx, empty_ndx, min_ndx, min_count)
    else if c.count = 0 then
      add_scan addr rest (ndx + 1) (Int.ofNat ndx) min_ndx min_count
    else if c.count < min_count then
      add_scan addr rest (ndx + 1) empty_ndx (Int.ofNat ndx) c.count
    else
      add_scan addr rest (ndx + 1) empty_ndx min_ndx min_count

/-- The fresh entry created for a new address: count 1, no password. -/
def new_entry (addr : Nat) : client_t := ⟨addr, 1, false⟩

/-- add_IP_address: record this IP address in our table.  Returns the
index of the record for `addr` and the (possibly updated) table; `none`
models the C code's out-of-bounds write `clients[-1]` that happens when
no slot matches, no slot is empty, and no occupied slot has
`count < INT_MAX`. -/
def add_IP_address (clients : List client_t) (addr : Nat) :
    Option (Nat × List client_t) :=
  match add_scan addr clients 0 (-1) (-1) INT_MAX with
  | (some ndx, _, _, _) => some (ndx, clients)
  | (none, empty_ndx, min_ndx, _) =>
    let tgt : Int := if 0 ≤ empty_ndx then empty_ndx else min_ndx
    if 0 ≤ tgt ∧ tgt.toNat < clients.length then
      some (tgt.toNat, clients.set tgt.toNat (new_entry addr))
    else none

/-- Address uniqueness within the table, stated positionally. -/
def table_uniq (cs : List client_t) : Prop :=
  ∀ i j, i < cs.length → j < cs.length → i ≠ j →
    (cs.getD i client0).ip_address ≠ (cs.getD j client0).ip_address

/-! ### The log route's ring walk (genwifiserver.cpp lines 352-359)

```
if (logfile_hdr.num_entries > 0)
   for (int ndx = logfile_hdr.newest; ;) {
      ...print entry ndx...
      if (ndx == logfile_hdr.oldest) break;
      if (--ndx < 0) ndx = log_max_entries - 1; }
```
The loop is modelled as a fuel-bounded recursion producing the list of
entry indices printed, in order; the fuel is a modelling artifact only
(under the ring invariant the loop stops after `num_entries` prints, and
the route runs it with fuel `cap`, which the theorems show is enough). -/

def log_walk : Nat → Nat → Nat → Nat → List Nat
  | 0, _, _, _ => []
  | fuel + 1, ndx, oldest, cap =>
    ndx :: (if ndx = oldest then []
            else log_walk fuel (if ndx = 0 then cap - 1 else ndx - 1) oldest cap)

/-- Indices of the log entries the RSP_LOG branch prints, given the
header fields and the ring capacity `log_max_entries`. -/
def log_route_indices (num_entries newest oldest cap : Nat) : List Nat :=
  if num_entries > 0 then log_walk cap newest oldest cap else []

/-! ### Request and response types (genwifiserver.cpp lines 76-81) -/

inductive request_type_t
  | REQ_UNKNOWN | REQ_ROOT | REQ_VISITORS | REQ_LOG | REQ_PUSHBUTTON
  | REQ_SETPASS | REQ_FAVICON | REQ_BUTTONIMAGE
deriving DecidableEq

inductive response_type_t
  | RSP_UNKNOWN | RSP_STATUS | RSP_VISITORS | RSP_LOG | RSP_FAVICON
  | RSP_BUTTONIMAGE | RSP_ASKPASS | RSP_NONE
deriving DecidableEq

/-! ### Web server globals and the process_web step
(genwifiserver.cpp lines 72-95 and 504-627) -/

inductive web_status_t
  | WEB_NOT_CONNECTED | WEB_AWAITING_CONNECTION
  | WEB_AWAITING_CLIENT | WEB_PROCESSING_REQUEST
deriving DecidableEq

/-- Abstraction of the WiFi.status() readings process_web inspects:
WL_CONNECTED, WL_IDLE_STATUS, and everything else (the `default:`
"connection failed" arm). -/
inductive wl_status_t
  | WL_CONNECTED | WL_IDLE_STATUS | WL_OTHER
deriving DecidableEq

/-- The file-scope mutable state process_web and the request path touch:
the connection state machine variables, the WiFi statistics counters,
the delayed-response scheduler, and the queued button pushes
(`button_webpushed` has NUM_BUTTONS slots). -/
structure WebState where
  web_status : web_status_t
  connect_attempts : Nat
  next_connect_time : Nat
  wifi_connects : Nat
  wifi_connectfails : Nat
  wifi_disconnects : Nat
  wifi_resets : Nat
  delayed_response : Bool
  delayed_sendtime : Nat
  button_webpushed : List Bool
deriving DecidableEq

/-- Per-cycle inputs read by process_web: the power predicate and the
power-on web delay (the guard at line 509), `now()`, `millis()`,
`WiFi.status()`, whether `server.available()` yields a client, the
pending IFTTT trigger flag, and — abstracting the call to
process_client_request — whether the request handled this cycle queued a
button push and so left the delayed-response scheduler armed. -/
structure WebInput where
  have_power : Bool
  power_delay_ok : Bool
  now : Nat
  millis : Nat
  wl_status : wl_status_t
  client_available : Bool
  ifttt_do_trigger : Bool
  request_defers : Bool
deriving DecidableEq

/-- Externally visible action of one process_web cycle. -/
inductive WebAction
  | issued_association     -- called WiFi.begin
  | served_client          -- called process_client_request on an inbound client
  | sent_trigger           -- called ifttt_send_trigger
  | generated_status_response  -- emitted the deferred RSP_STATUS response
deriving DecidableEq

/-- queue_button_push (genwifiserver.cpp lines 240-247): set the queued
flag for the button and arm the delayed response. -/
def queue_button_push (button : Nat) (millis : Nat) (st : WebState) : WebState :=
  { st with
    button_webpushed := st.button_webpushed.set button true
    delayed_response := true
    delayed_sendtime := millis + DELAYED_RSP_MSEC }

/-- One call of process_web (genwifiserver.cpp lines 504-627).  The
outer guard models `HAVE_POWER && now() - last_poweron_time >
POWER_ON_WEB_DELAY_SECS` (the anti-recursion flag is a no-op in this
single-threaded model).  The WEB_AWAITING_CLIENT arm abstracts
process_client_request by `inp.request_defers` (see WebInput). -/
def process_web (st : WebState) (inp : WebInput) : WebState × Option WebAction :=
  if inp.have_power && inp.power_delay_ok then
    match st.web_status with
    | web_status_t.WEB_NOT_CONNECTED =>
      if inp.now ≥ st.next_connect_time then
        ({ st with
           connect_attempts := st.connect_attempts + 1
           web_status := web_status_t.WEB_AWAITING_CONNECTION },
         some WebAction.issued_association)
      else (st, none)
    | web_status_t.WEB_AWAITING_CONNECTION =>
      match inp.wl_status with
      | wl_status_t.WL_CONNECTED =>
        ({ st with
           wifi_connects := st.wifi_connects + 1
           connect_attempts := 0
           web_status := web_status_t.WEB_AWAITING_CLIENT }, none)
      | wl_status_t.WL_IDLE_STATUS => (st, none)
      | wl_status_t.WL_OTHER =>
        let st1 := { st with wifi_connectfails := st.wifi_connectfails + 1 }
        let st2 :=
          if st1.connect_attempts ≥ MAX_CONNECT_ATTEMPTS then
            { st1 with wifi_resets := st1.wifi_resets + 1, connect_attempts := 0 }
          else st1
        ({ st2 with
           next_connect_time := inp.now + CONNECT_DELAY_SECS
           web_status := web_status_t.WEB_NOT_CONNECTED }, none)
    | web_status_t.WEB_AWAITING_CLIENT =>
      if inp.wl_status ≠ wl_status_t.WL_CONNECTED then
        ({ st with
           wifi_disconnects := st.wifi_disconnects + 1
           wifi_resets := st.wifi_resets + 1
           connect_attempts := 0
           next_connect_time := inp.now + CONNECT_DELAY_SECS
           web_status := web_status_t.WEB_NOT_CONNECTED }, none)
      else if inp.client_available then
        (if inp.request_defers then
           { st with
             web_status := web_status_t.WEB_PROCESSING_REQUEST
             delayed_response := true
             delayed_sendtime := inp.millis + DELAYED_RSP_MSEC }
         else { st with web_status := web_status_t.WEB_AWAITING_CLIENT },
         some WebAction.served_client)
      else if inp.ifttt_do_trigger then (st, some WebAction.sent_trigger)
      else (st, none)
    | web_status_t.WEB_PROCESSING_REQUEST =>
      if inp.millis > st.delayed_sendtime then
        ({ st with
           delayed_response := false
           web_status := web_status_t.WEB_AWAITING_CLIENT },
         some WebAction.generated_status_response)
      else (st, none)
  else (st, none)

/-- Iterated process_web over a list of per-cycle inputs. -/
def run_web (st : WebState) (inps : List WebInput) : WebState :=
  inps.foldl (fun s i => (process_web s i).1) st

/-! ### The request path of process_client_request
(genwifiserver.cpp lines 397-464)

Request lines are modelled as `List Char`.  The scanners `scan_key` and
`scan_int` are declared in generator.h but defined in the excluded main
module, so the body-field scanners below are modelled from the spec. -/

/-- ACTION_PASSWORD from Wifi_names.h, as characters. -/
def ACTION_PASSWORD : List Char := ['p', 'a', 's', 's', 'w', 'o', 'r', 'd']

/-- check_password (genwifiserver.cpp lines 248-249):
`strcmp(ptr, ACTION_PASSWORD) == 0`. -/
def check_password (ptr : List Char) : Bool := ptr = ACTION_PASSWORD

/-- The key of the setpass body field. -/
def PWD_KEY : List Char := ['p', 'w', 'd', '=']

/-- The key of the pushbutton body field. -/
def BUTTON_KEY : List Char := ['b', 'u', 't', 't', 'o', 'n', '=']

/-- Modelled from the spec: `scan_key(&ptr, "PWD=")` — the setpass body
field is `pwd=<string>`; on a match the scanner leaves `ptr` at the
submitted value.  (scan_key itself lives in the excluded main module.) -/
def scan_pwd_line (line : List Char) : Option (List Char) :=
  if line.take PWD_KEY.length = PWD_KEY then some (line.drop PWD_KEY.length)
  else none

/-- Digit-string parser used to model scan_int: all of `cs` must be
decimal digits, value is their base-10 reading. -/
def parse_digits (cs : List Char) : Option Nat :=
  if cs ≠ [] ∧ cs.all (fun c => c.isDigit) then
    some (cs.foldl (fun n c => n * 10 + (c.toNat - 48)) 0)
  else none

/-- Modelled from the spec: `scan_key(&ptr, "BUTTON=") &&
scan_int(&ptr, &button, 0, NUM_BUTTONS - 1)` — the pushbutton body field
is `button=<int>`, accepted only for 0 ≤ int ≤ NUM_BUTTONS - 1.
(scan_key/scan_int live in the excluded main module.) -/
def scan_button_line (line : List Char) : Option Nat :=
  if line.take BUTTON_KEY.length = BUTTON_KEY then
    match parse_digits (line.drop BUTTON_KEY.length) with
    | some i => if i ≤ NUM_BUTTONS - 1 then some i else none
    | none => none
  else none

/-- Does a setpass body line set the password?  (`scan_key(&ptr, "PWD=")
&& check_password(ptr)`.) -/
def pwd_line_matches (line : List Char) : Bool :=
  match scan_pwd_line line with
  | some v => check_password v
  | none => false

/-- The REQ_PUSHBUTTON body loop (genwifiserver.cpp lines 446-454): for
each line, if it parses as a valid button field then either queue the
push (peer already gave the password; response becomes RSP_NONE) or ask
for the password; other lines change nothing. -/
def pushbutton_loop (gave_password : Bool) (millis : Nat) :
    List (List Char) → WebState → response_type_t → WebState × response_type_t
  | [], st, rsp => (st, rsp)
  | line :: rest, st, rsp =>
    match scan_button_line line with
    | some button =>
      if gave_password then
        pushbutton_loop gave_password millis rest
          (queue_button_push button millis st) response_type_t.RSP_NONE
      else
        pushbutton_loop gave_password millis rest st response_type_t.RSP_ASKPASS
    | none => pushbutton_loop gave_password millis rest st rsp

/-- The REQ_PUSHBUTTON arm (genwifiserver.cpp lines 444-454): the body
loop runs only when the client still has input pending
(`pclient->available() > 2`, modelled as a nonempty body); response_type
starts as RSP_UNKNOWN. -/
def process_pushbutton (gave_password : Bool) (millis : Nat)
    (body : List (List Char)) (st : WebState) : WebState × response_type_t :=
  if body.isEmpty then (st, response_type_t.RSP_UNKNOWN)
  else pushbutton_loop gave_password millis body st response_type_t.RSP_UNKNOWN

/-- The tail of process_client_request for a pushbutton request
(line 464): `if (response_type != RSP_NONE) generate_response(...)`.
Returns the new state and the response emitted this cycle, if any. -/
def pushbutton_request (gave_password : Bool) (millis : Nat)
    (body : List (List Char)) (st : WebState) : WebState × Option response_type_t :=
  let r := process_pushbutton gave_password millis body st
  (r.1, if r.2 = response_type_t.RSP_NONE then none else some r.2)

/-- The REQ_SETPASS body loop (genwifiserver.cpp lines 456-463): each
line either matches `pwd=<secret>` (mark the peer authorized, response
becomes RSP_STATUS) or sets the response to RSP_ASKPASS.  Returns the
peer's gave_password flag and the response. -/
def setpass_loop (gave_password : Bool) (rsp : response_type_t) :
    List (List Char) → Bool × response_type_t
  | [] => (gave_password, rsp)
  | line :: rest =>
    if pwd_line_matches line then
      setpass_loop true response_type_t.RSP_STATUS rest
    else
      setpass_loop gave_password response_type_t.RSP_ASKPASS rest

/-- The REQ_SETPASS arm: the body loop starting from RSP_UNKNOWN. -/
def process_setpass (gave_password : Bool) (body : List (List Char)) :
    Bool × response_type_t :=
  setpass_loop gave_password response_type_t.RSP_UNKNOWN body

/-- The per-request accounting of process_client_request (lines 417 and
428-429): look up / create the peer's record, then — unless the request
was GET /favicon.ico — bump the record's visit count and the global
requests_processed counter.  Returns the record index, the table, and
requests_processed. -/
def process_request_accounting (clients : List client_t) (addr : Nat)
    (request_type : request_type_t) (requests_processed : Int) :
    Option (Nat × List client_t × Int) :=
  match add_IP_address clients addr with
  | none => none
  | some (ndx, cl2) =>
    if request_type = request_type_t.REQ_FAVICON then
      some (ndx, cl2, requests_processed)
    else
      match cl2.get? ndx with
      | some c => some (ndx, cl2.set ndx { c with count := c.count + 1 },
                        requests_processed + 1)
      | none => none

/-! ## Theorems -/

/-- C2: the spec claims every left-arrow glyph expands to the full
entity "&#8592;" and every blank to the full entity "&nbsp;".  The code
copies the full entity but advances the destination cursor by one byte
too few (6 for the 7-byte arrow entities, 5 for the 6-byte nbsp entity),
so the trailing semicolon is overwritten by the next write or by the
final NUL.  On the display row `[0x7f, ' ', 'a']` the rendered bytes are
"&#8592&nbspa": the semicolon-less prefixes appear, the full entities do
not, and (as the claim also says, correctly) the raw glyph byte is gone. -/
theorem C2_expand_drops_semicolons :
    expand_arrows_and_blanks [LEFTARROW, BLANKBYTE, 97] =
      [38, 35, 56, 53, 57, 50, 38, 110, 98, 115, 112, 97] ∧
    ¬ List.IsInfix [38, 35, 56, 53, 57, 50, 59]
        (expand_arrows_and_blanks [LEFTARROW, BLANKBYTE, 97]) ∧
    ¬ List.IsInfix [38, 110, 98, 115, 112, 59]
        (expand_arrows_and_blanks [LEFTARROW, BLANKBYTE, 97]) ∧
    List.IsInfix [38, 35, 56, 53, 57, 50]
        (expand_arrows_and_blanks [LEFTARROW, BLANKBYTE, 97]) ∧
    List.IsInfix [38, 110, 98, 115, 112]
        (expand_arrows_and_blanks [LEFTARROW, BLANKBYTE, 97]) ∧
    LEFTARROW ∉ expand_arrows_and_blanks [LEFTARROW, BLANKBYTE, 97] := by
  decide

/-- Helper for the ring walk: successor modulo a positive base. -/
theorem succ_mod_eq (a cap : Nat) (hcap : 0 < cap) :
    (a + 1) % cap = if a % cap + 1 = cap then 0 else a % cap + 1 := by
  have ha : cap * (a / cap) + a % cap = a := Nat.div_add_mod a cap
  have hr : a % cap < cap := Nat.mod_lt _ hcap
  have e : a + 1 = cap * (a / cap) + (a % cap + 1) := by omega
  rw [e, Nat.mul_add_mod]
  by_cases h : a % cap + 1 = cap
  · rw [if_pos h, h, Nat.mod_self]
  · rw [if_neg h, Nat.mod_eq_of_lt (by omega)]

/-- Helper: the C decrement `if (--ndx < 0) ndx = cap - 1` applied to
`(a + 1) % cap` yields `a % cap`. -/
theorem wrap_dec (a cap : Nat) (hcap : 0 < cap) :
    (if (a + 1) % cap = 0 then cap - 1 else (a + 1) % cap - 1) = a % cap := by
  rw [succ_mod_eq a cap hcap]
  have hr : a % cap < cap := Nat.mod_lt _ hcap
  by_cases h : a % cap + 1 = cap
  · rw [if_pos h, if_pos (rfl : (0 : Nat) = 0)]
    omega
  · rw [if_neg h, if_neg (by omega : ¬a % cap + 1 = 0)]
    omega

/-- Specification of the log ring walk: starting `k` steps above
`oldest` (mod `cap`), with enough fuel, the walk prints exactly the
`k + 1` indices counting down (with wraparound) to `oldest`. -/
theorem log_walk_spec : ∀ (k fuel oldest cap : Nat), 0 < cap → oldest < cap →
    k < cap → k + 1 ≤ fuel →
    log_walk fuel ((oldest + k) % cap) oldest cap =
      (List.range (k + 1)).map (fun i => (oldest + (k - i)) % cap) := by
  intro k
  induction k with
  | zero =>
    intro fuel oldest cap hcap hold _ hfuel
    obtain ⟨f, rfl⟩ : ∃ f, fuel = f + 1 := ⟨fuel - 1, by omega⟩
    simp [log_walk, Nat.mod_eq_of_lt hold]
  | succ k ih =>
    intro fuel oldest cap hcap hold hk hfuel
    obtain ⟨f, rfl⟩ : ∃ f, fuel = f + 1 := ⟨fuel - 1, by omega⟩
    have hne : (oldest + (k + 1)) % cap ≠ oldest := by
      intro he
      have h1 : oldest % cap = (oldest + (k + 1)) % cap := by
        rw [he, Nat.mod_eq_of_lt hold]
      have h2 : cap ∣ oldest + (k + 1) - oldest :=
        (Nat.modEq_iff_dvd' (Nat.le_add_right _ _)).mp h1
      rw [Nat.add_sub_cancel_left] at h2
      exact absurd (Nat.le_of_dvd (by omega) h2) (by omega)
    have hstep : (if (oldest + (k + 1)) % cap = 0 then cap - 1
        else (oldest + (k + 1)) % cap - 1) = (oldest + k) % cap := by
      rw [← Nat.add_assoc]
      exact wrap_dec (oldest + k) cap hcap
    rw [log_walk, if_neg hne, hstep,
      ih f oldest cap hcap hold (by omega) (by omega)]
    conv_rhs => rw [List.range_succ_eq_map, List.map_cons, List.map_map]
    refine congrArg₂ List.cons ?_ ?_
    · simp
    · refine List.map_congr_left ?_
      intro i _
      simp only [Function.comp_apply]
      congr 1
      omega

/-- C4: the log route emits exactly `num_entries` indices, starting at
`newest` and stepping downward with wraparound until reaching `oldest`
inclusive; an empty log emits nothing.  The ring invariant supplies
`newest = (oldest + num_entries - 1) % cap`. -/
theorem C4_log_route_newest_first (num_entries newest oldest cap : Nat)
    (hcap : 0 < cap) (hold : oldest < cap) (hk : num_entries ≤ cap) :
    (num_entries = 0 → log_route_indices num_entries newest oldest cap = []) ∧
    (0 < num_entries → newest = (oldest + (num_entries - 1)) % cap →
      log_route_indices num_entries newest oldest cap =
        (List.range num_entries).map
          (fun i => (oldest + (num_entries - 1 - i)) % cap) ∧
      (log_route_indices num_entries newest oldest cap).length = num_entries) := by
  constructor
  · intro h0
    simp [log_route_indices, h0]
  · intro hpos hnew
    obtain ⟨k, rfl⟩ : ∃ k, num_entries = k + 1 := ⟨num_entries - 1, by omega⟩
    have hw := log_walk_spec k cap oldest cap hcap hold (by omega) (by omega)
    have hroute : log_route_indices (k + 1) newest oldest cap =
        log_walk cap newest oldest cap := by
      simp [log_route_indices]
    rw [hroute, hnew]
    simp only [Nat.add_sub_cancel]
    exact ⟨hw, by rw [hw]; simp⟩

/-- C4 witness: a ring of capacity 4 holding 3 entries with oldest at
slot 2 (so newest is slot 0) lists slots 0, 3, 2 in that order. -/
theorem C4_log_route_newest_first_witness :
    log_route_indices 3 0 2 4 = [0, 3, 2] := by
  have h := (C4_log_route_newest_first 3 0 2 4 (by decide) (by decide)
    (by decide)).2 (by decide) (by decide)
  rw [h.1]
  decide

/-! ### Lemmas about the add_IP_address scan -/

/-- If slot `j` is the first whose address matches, the scan returns
early with absolute index `n + j`. -/
theorem add_scan_match (addr : Nat) : ∀ (cs : List client_t) (n : Nat)
    (e m mc : Int) (j : Nat),
    j < cs.length → (cs.getD j client0).ip_address = addr →
    (∀ i, i < j → (cs.getD i client0).ip_address ≠ addr) →
    ∃ e2 m2 mc2, add_scan addr cs n e m mc = (some (n + j), e2, m2, mc2) := by
  intro cs
  induction cs with
  | nil =>
    intro n e m mc j hj
    simp at hj
  | cons c cs ih =>
    intro n e m mc j hj hmatch hbefore
    cases j with
    | zero =>
      simp only [List.getD_cons_zero] at hmatch
      refine ⟨e, m, mc, ?_⟩
      simp [add_scan, hmatch]
    | succ j' =>
      have hc : c.ip_address ≠ addr := by
        have h0 := hbefore 0 (Nat.succ_pos _)
        simpa using h0
      simp only [List.getD_cons_succ] at hmatch
      have hb : ∀ i, i < j' → (cs.getD i client0).ip_address ≠ addr := by
        intro i hi
        have h1 := hbefore (i + 1) (by omega)
        simpa using h1
      have hj' : j' < cs.length := by
        simp only [List.length_cons] at hj
        omega
      have eadd : n + 1 + j' = n + (j' + 1) := by omega
      simp only [add_scan, if_neg hc]
      by_cases h0 : c.count = 0
      · rw [if_pos h0]
        obtain ⟨e2, m2, mc2, hrec⟩ := ih (n + 1) (Int.ofNat n) m mc j' hj' hmatch hb
        exact ⟨e2, m2, mc2, by rw [hrec, eadd]⟩
      · rw [if_neg h0]
        by_cases h1 : c.count < mc
        · rw [if_pos h1]
          obtain ⟨e2, m2, mc2, hrec⟩ := ih (n + 1) e (Int.ofNat n) c.count j' hj' hmatch hb
          exact ⟨e2, m2, mc2, by rw [hrec, eadd]⟩
        · rw [if_neg h1]
          obtain ⟨e2, m2, mc2, hrec⟩ := ih (n + 1) e m mc j' hj' hmatch hb
          exact ⟨e2, m2, mc2, by rw [hrec, eadd]⟩

/-- If no slot's address matches, the scan does not return early. -/
theorem add_scan_nomatch (addr : Nat) : ∀ (cs : List client_t) (n : Nat)
    (e m mc : Int), (∀ c ∈ cs, c.ip_address ≠ addr) →
    (add_scan addr cs n e m mc).1 = none := by
  intro cs
  induction cs with
  | nil =>
    intro n e m mc _
    simp [add_scan]
  | cons c cs ih =>
    intro n e m mc hno
    have hc : c.ip_address ≠ addr := hno c (List.mem_cons_self c cs)
    have htail : ∀ x ∈ cs, x.ip_address ≠ addr := fun x hx =>
      hno x (List.mem_cons_of_mem c hx)
    simp only [add_scan, if_neg hc]
    by_cases h0 : c.count = 0
    · rw [if_pos h0]
      exact ih (n + 1) (Int.ofNat n) m mc htail
    · rw [if_neg h0]
      by_cases h1 : c.count < mc
      · rw [if_pos h1]
        exact ih (n + 1) e (Int.ofNat n) c.count htail
      · rw [if_neg h1]
        exact ih (n + 1) e m mc htail

/-- If the scan did not return early, no slot's address matched. -/
theorem add_scan_none_imp (addr : Nat) : ∀ (cs : List client_t) (n : Nat)
    (e m mc : Int), (add_scan addr cs n e m mc).1 = none →
    ∀ c ∈ cs, c.ip_address ≠ addr := by
  intro cs
  induction cs with
  | nil =>
    intro n e m mc _ c hc
    simp at hc
  | cons c cs ih =>
    intro n e m mc hnone x hx
    by_cases hc : c.ip_address = addr
    · exfalso
      simp [add_scan, hc] at hnone
    · rcases List.mem_cons.mp hx with rfl | hx'
      · exact hc
      · simp only [add_scan, if_neg hc] at hnone
        by_cases h0 : c.count = 0
        · rw [if_pos h0] at hnone
          exact ih (n + 1) (Int.ofNat n) m mc hnone x hx'
        · rw [if_neg h0] at hnone
          by_cases h1 : c.count < mc
          · rw [if_pos h1] at hnone
            exact ih (n + 1) e (Int.ofNat n) c.count hnone x hx'
          · rw [if_neg h1] at hnone
            exact ih (n + 1) e m mc hnone x hx'

/-- If no slot is empty (and no address matches), `empty_ndx` keeps its
incoming value. -/
theorem add_scan_empty_const (addr : Nat) : ∀ (cs : List client_t) (n : Nat)
    (e m mc : Int), (∀ c ∈ cs, c.ip_address ≠ addr) →
    (∀ c ∈ cs, c.count ≠ 0) →
    (add_scan addr cs n e m mc).2.1 = e := by
  intro cs
  induction cs with
  | nil =>
    intro n e m mc _ _
    simp [add_scan]
  | cons c cs ih =>
    intro n e m mc hno hocc
    have hc : c.ip_address ≠ addr := hno c (List.mem_cons_self c cs)
    have h0 : c.count ≠ 0 := hocc c (List.mem_cons_self c cs)
    have htail : ∀ x ∈ cs, x.ip_address ≠ addr := fun x hx =>
      hno x (List.mem_cons_of_mem c hx)
    have htail0 : ∀ x ∈ cs, x.count ≠ 0 := fun x hx =>
      hocc x (List.mem_cons_of_mem c hx)
    simp only [add_scan, if_neg hc, if_neg h0]
    by_cases h1 : c.count < mc
    · rw [if_pos h1]
      exact ih (n + 1) e (Int.ofNat n) c.count htail htail0
    · rw [if_neg h1]
      exact ih (n + 1) e m mc htail htail0

/-- If some slot is empty (and no address matches), `empty_ndx` ends at
an in-range absolute index of an empty slot. -/
theorem add_scan_empty_hit (addr : Nat) : ∀ (cs : List client_t) (n : Nat)
    (e m mc : Int), (∀ c ∈ cs, c.ip_address ≠ addr) →
    (∃ c ∈ cs, c.count = 0) →
    ∃ j, j < cs.length ∧ (cs.getD j client0).count = 0 ∧
      (add_scan addr cs n e m mc).2.1 = Int.ofNat (n + j) := by
  intro cs
  induction cs with
  | nil =>
    intro n e m mc _ hex
    simp at hex
  | cons c cs ih =>
    intro n e m mc hno hex
    have hc : c.ip_address ≠ addr := hno c (List.mem_cons_self c cs)
    have htail : ∀ x ∈ cs, x.ip_address ≠ addr := fun x hx =>
      hno x (List.mem_cons_of_mem c hx)
    simp only [add_scan, if_neg hc]
    by_cases h0 : c.count = 0
    · rw [if_pos h0]
      by_cases hex' : ∃ x ∈ cs, x.count = 0
      · obtain ⟨j, hj, hj0, hje⟩ := ih (n + 1) (Int.ofNat n) m mc htail hex'
        exact ⟨j + 1, by simpa using Nat.succ_lt_succ hj,
          by simpa using hj0, by rw [hje]; congr 1; omega⟩
      · have hocc : ∀ x ∈ cs, x.count ≠ 0 := by
          intro x hx
          by_contra hxx
          exact hex' ⟨x, hx, by simpa using hxx⟩
        refine ⟨0, by simp, by simpa using h0, ?_⟩
        rw [add_scan_empty_const addr cs (n + 1) (Int.ofNat n) m mc htail hocc]
        simp
    · rw [if_neg h0]
      have hex' : ∃ x ∈ cs, x.count = 0 := by
        obtain ⟨x, hx, hx0⟩ := hex
        rcases List.mem_cons.mp hx with rfl | hx'
        · exact absurd hx0 h0
        · exact ⟨x, hx', hx0⟩
      by_cases h1 : c.count < mc
      · rw [if_pos h1]
        obtain ⟨j, hj, hj0, hje⟩ := ih (n + 1) e (Int.ofNat n) c.count htail hex'
        exact ⟨j + 1, by simpa using Nat.succ_lt_succ hj,
          by simpa using hj0, by rw [hje]; congr 1; omega⟩
      · rw [if_neg h1]
        obtain ⟨j, hj, hj0, hje⟩ := ih (n + 1) e m mc htail hex'
        exact ⟨j + 1, by simpa using Nat.succ_lt_succ hj,
          by simpa using hj0, by rw [hje]; congr 1; omega⟩

/-- Helper: an in-range `getD` value is a member of the list. -/
theorem getD_mem_of_lt (l : List client_t) (i : Nat) (h : i < l.length) :
    l.getD i client0 ∈ l := by
  rw [List.getD_eq_getElem l client0 h]
  exact List.getElem_mem h

/-- If no occupied slot improves on the incoming `min_count` (and no
address matches, no slot is empty), `min_ndx` and `min_count` keep their
incoming values. -/
theorem add_scan_min_const (addr : Nat) : ∀ (cs : List client_t) (n : Nat)
    (e m mc : Int), (∀ c ∈ cs, c.ip_address ≠ addr) →
    (∀ c ∈ cs, c.count ≠ 0) → (∀ c ∈ cs, mc ≤ c.count) →
    (add_scan addr cs n e m mc).2.2.1 = m ∧
    (add_scan addr cs n e m mc).2.2.2 = mc := by
  intro cs
  induction cs with
  | nil =>
    intro n e m mc _ _ _
    simp [add_scan]
  | cons c cs ih =>
    intro n e m mc hno hocc hge
    have hc : c.ip_address ≠ addr := hno c (List.mem_cons_self c cs)
    have h0 : c.count ≠ 0 := hocc c (List.mem_cons_self c cs)
    have h1 : ¬c.count < mc := not_lt.mpr (hge c (List.mem_cons_self c cs))
    have htail : ∀ x ∈ cs, x.ip_address ≠ addr := fun x hx =>
      hno x (List.mem_cons_of_mem c hx)
    have htail0 : ∀ x ∈ cs, x.count ≠ 0 := fun x hx =>
      hocc x (List.mem_cons_of_mem c hx)
    have htailge : ∀ x ∈ cs, mc ≤ x.count := fun x hx =>
      hge x (List.mem_cons_of_mem c hx)
    simp only [add_scan, if_neg hc, if_neg h0, if_neg h1]
    exact ih (n + 1) e m mc htail htail0 htailge

/-- The argmin property of the scan: if every slot is occupied, none
matches, and some slot's count beats the incoming `min_count`, then
`min_ndx` ends at the first slot attaining the minimum count and
`min_count` at that minimum. -/
theorem add_scan_min_spec (addr : Nat) : ∀ (cs : List client_t) (n : Nat)
    (e m mc : Int), (∀ c ∈ cs, c.ip_address ≠ addr) →
    (∀ c ∈ cs, c.count ≠ 0) → (∃ c ∈ cs, c.count < mc) →
    ∃ j, j < cs.length ∧
      (add_scan addr cs n e m mc).2.2.1 = Int.ofNat (n + j) ∧
      (add_scan addr cs n e m mc).2.2.2 = (cs.getD j client0).count ∧
      (cs.getD j client0).count < mc ∧
      (∀ i, i < cs.length →
        (cs.getD j client0).count ≤ (cs.getD i client0).count) ∧
      (∀ i, i < j → (cs.getD j client0).count < (cs.getD i client0).count) := by
  intro cs
  induction cs with
  | nil =>
    intro n e m mc _ _ hex
    simp at hex
  | cons c cs ih =>
    intro n e m mc hno hocc hex
    have hc : c.ip_address ≠ addr := hno c (List.mem_cons_self c cs)
    have h0 : c.count ≠ 0 := hocc c (List.mem_cons_self c cs)
    have htail : ∀ x ∈ cs, x.ip_address ≠ addr := fun x hx =>
      hno x (List.mem_cons_of_mem c hx)
    have htail0 : ∀ x ∈ cs, x.count ≠ 0 := fun x hx =>
      hocc x (List.mem_cons_of_mem c hx)
    simp only [add_scan, if_neg hc, if_neg h0]
    by_cases h1 : c.count < mc
    · rw [if_pos h1]
      by_cases hex2 : ∃ x ∈ cs, x.count < c.count
      · obtain ⟨j, hj, hm, hmc, hlt, hle, hstrict⟩ :=
          ih (n + 1) e (Int.ofNat n) c.count htail htail0 hex2
        refine ⟨j + 1, by simpa using Nat.succ_lt_succ hj, ?_, ?_, ?_, ?_, ?_⟩
        · rw [hm]
          congr 1
          omega
        · simpa using hmc
        · simp only [List.getD_cons_succ]
          exact lt_trans hlt h1
        · intro i hi
          cases i with
          | zero =>
            simp only [List.getD_cons_zero, List.getD_cons_succ]
            exact le_of_lt hlt
          | succ i' =>
            simp only [List.getD_cons_succ]
            refine hle i' ?_
            simp only [List.length_cons] at hi
            omega
        · intro i hi
          cases i with
          | zero =>
            simp only [List.getD_cons_zero, List.getD_cons_succ]
            exact hlt
          | succ i' =>
            simp only [List.getD_cons_succ]
            exact hstrict i' (by omega)
      · have hall : ∀ x ∈ cs, c.count ≤ x.count := by
          intro x hx
          by_contra hxx
          exact hex2 ⟨x, hx, not_le.mp hxx⟩
        obtain ⟨hm, hmc⟩ :=
          add_scan_min_const addr cs (n + 1) e (Int.ofNat n) c.count htail htail0 hall
        refine ⟨0, by simp, ?_, ?_, ?_, ?_, ?_⟩
        · rw [hm]
          simp
        · rw [hmc]
          simp
        · simpa using h1
        · intro i hi
          cases i with
          | zero => simp
          | succ i' =>
            simp only [List.getD_cons_zero, List.getD_cons_succ]
            refine hall _ (getD_mem_of_lt cs i' ?_)
            simp only [List.length_cons] at hi
            omega
        · intro i hi
          exact absurd hi (Nat.not_lt_zero i)
    · rw [if_neg h1]
      have hcge : mc ≤ c.count := not_lt.mp h1
      have hex2 : ∃ x ∈ cs, x.count < mc := by
        obtain ⟨x, hx, hxlt⟩ := hex
        rcases List.mem_cons.mp hx with rfl | hx'
        · exact absurd hxlt h1
        · exact ⟨x, hx', hxlt⟩
      obtain ⟨j, hj, hm, hmc, hlt, hle, hstrict⟩ :=
        ih (n + 1) e m mc htail htail0 hex2
      refine ⟨j + 1, by simpa using Nat.succ_lt_succ hj, ?_, ?_, ?_, ?_, ?_⟩
      · rw [hm]
        congr 1
        omega
      · simpa using hmc
      · simpa using hlt
      · intro i hi
        cases i with
        | zero =>
          simp only [List.getD_cons_zero, List.getD_cons_succ]
          exact le_of_lt (lt_of_lt_of_le hlt hcge)
        | succ i' =>
          simp only [List.getD_cons_succ]
          refine hle i' ?_
          simp only [List.length_cons] at hi
          omega
      · intro i hi
        cases i with
        | zero =>
          simp only [List.getD_cons_zero, List.getD_cons_succ]
          exact lt_of_lt_of_le hlt hcge
        | succ i' =>
          simp only [List.getD_cons_succ]
          exact hstrict i' (by omega)

/-- Helper: `getD` after `set` at a different index. -/
theorem getD_set_ne (l : List client_t) (j i : Nat) (x : client_t) (h : i ≠ j) :
    (l.set j x).getD i client0 = l.getD i client0 := by
  rw [List.getD_eq_getElem?_getD, List.getD_eq_getElem?_getD,
    List.getElem?_set_ne (Ne.symm h)]

/-- Helper: `getD` after `set` at the same (in-range) index. -/
theorem getD_set_eq (l : List client_t) (j : Nat) (x : client_t)
    (h : j < l.length) : (l.set j x).getD j client0 = x := by
  rw [List.getD_eq_getElem?_getD, List.getElem?_set_eq_of_lt x h]
  rfl

/-- If the scan returned early, the returned index is in range. -/
theorem add_scan_some_bounds (addr : Nat) : ∀ (cs : List client_t) (n : Nat)
    (e m mc : Int) (k : Nat), (add_scan addr cs n e m mc).1 = some k →
    n ≤ k ∧ k < n + cs.length := by
  intro cs
  induction cs with
  | nil =>
    intro n e m mc k h
    simp [add_scan] at h
  | cons c cs ih =>
    intro n e m mc k h
    by_cases hc : c.ip_address = addr
    · simp [add_scan, hc] at h
      simp only [List.length_cons]
      omega
    · simp only [add_scan, if_neg hc] at h
      by_cases h0 : c.count = 0
      · rw [if_pos h0] at h
        have := ih (n + 1) (Int.ofNat n) m mc k h
        simp only [List.length_cons]
        omega
      · rw [if_neg h0] at h
        by_cases h1 : c.count < mc
        · rw [if_pos h1] at h
          have := ih (n + 1) e (Int.ofNat n) c.count k h
          simp only [List.length_cons]
          omega
        · rw [if_neg h1] at h
          have := ih (n + 1) e m mc k h
          simp only [List.length_cons]
          omega

/-- The address-match case of add_IP_address: return the first matching
slot, table untouched. -/
theorem add_IP_match_case (cs : List client_t) (addr : Nat) (j : Nat)
    (hj : j < cs.length) (hmatch : (cs.getD j client0).ip_address = addr)
    (hbefore : ∀ i, i < j → (cs.getD i client0).ip_address ≠ addr) :
    add_IP_address cs addr = some (j, cs) := by
  obtain ⟨e2, m2, mc2, hscan⟩ :=
    add_scan_match addr cs 0 (-1) (-1) INT_MAX j hj hmatch hbefore
  simp [add_IP_address, hscan]

/-- The empty-slot case of add_IP_address: no match, some slot empty —
a new entry is created in an empty slot. -/
theorem add_IP_empty_case (cs : List client_t) (addr : Nat)
    (hno : ∀ c ∈ cs, c.ip_address ≠ addr) (hex : ∃ c ∈ cs, c.count = 0) :
    ∃ j, j < cs.length ∧ (cs.getD j client0).count = 0 ∧
      add_IP_address cs addr = some (j, cs.set j (new_entry addr)) := by
  obtain ⟨j, hj, hj0, hje⟩ :=
    add_scan_empty_hit addr cs 0 (-1) (-1) INT_MAX hno hex
  have hnone := add_scan_nomatch addr cs 0 (-1) (-1) INT_MAX hno
  refine ⟨j, hj, hj0, ?_⟩
  rcases hR : add_scan addr cs 0 (-1) (-1) INT_MAX with ⟨o, e2, m2, mc2⟩
  rw [hR] at hnone hje
  simp only at hnone hje
  subst hnone
  subst hje
  simp only [add_IP_address, hR]
  rw [if_pos ?_]
  · simp
  · refine ⟨Int.ofNat_nonneg _, ?_⟩
    simpa using hj

/-- The eviction case of add_IP_address: no match, no empty slot, some
count below INT_MAX — the minimum-count slot (first such) is replaced. -/
theorem add_IP_evict_case (cs : List client_t) (addr : Nat)
    (hno : ∀ c ∈ cs, c.ip_address ≠ addr) (hocc : ∀ c ∈ cs, c.count ≠ 0)
    (hex : ∃ c ∈ cs, c.count < INT_MAX) :
    ∃ j, j < cs.length ∧
      add_IP_address cs addr = some (j, cs.set j (new_entry addr)) ∧
      (∀ i, i < cs.length →
        (cs.getD j client0).count ≤ (cs.getD i client0).count) ∧
      (∀ i, i < j → (cs.getD j client0).count < (cs.getD i client0).count) := by
  obtain ⟨j, hj, hm, hmc, hlt, hle, hstrict⟩ :=
    add_scan_min_spec addr cs 0 (-1) (-1) INT_MAX hno hocc hex
  have hnone := add_scan_nomatch addr cs 0 (-1) (-1) INT_MAX hno
  have hec := add_scan_empty_const addr cs 0 (-1) (-1) INT_MAX hno hocc
  refine ⟨j, hj, ?_, hle, hstrict⟩
  rcases hR : add_scan addr cs 0 (-1) (-1) INT_MAX with ⟨o, e2, m2, mc2⟩
  rw [hR] at hnone hec hm
  simp only at hnone hec hm
  subst hnone
  subst hec
  subst hm
  simp only [add_IP_address, hR]
  rw [if_neg (by decide : ¬(0 : Int) ≤ -1)]
  rw [if_pos ?_]
  · simp
  · refine ⟨Int.ofNat_nonneg _, ?_⟩
    simpa using hj

/-- Bounds of a successful add_IP_address: the returned index is inside
the returned table, whose length equals the input table's. -/
theorem add_IP_some_bounds (cs : List client_t) (addr : Nat) (j : Nat)
    (t2 : List client_t) (h : add_IP_address cs addr = some (j, t2)) :
    j < t2.length ∧ t2.length = cs.length := by
  rcases hR : add_scan addr cs 0 (-1) (-1) INT_MAX with ⟨o, e2, m2, mc2⟩
  cases o with
  | some k =>
    have hb := add_scan_some_bounds addr cs 0 (-1) (-1) INT_MAX k
      (by rw [hR])
    simp only [add_IP_address, hR] at h
    obtain ⟨rfl, rfl⟩ : k = j ∧ cs = t2 := by
      constructor <;> [exact (Option.some_injective _ h ▸ rfl : (k, cs).1 = j);
        exact (Option.some_injective _ h ▸ rfl : (k, cs).2 = t2)]
    omega
  | none =>
    simp only [add_IP_address, hR] at h
    by_cases hcond : 0 ≤ (if 0 ≤ e2 then e2 else m2) ∧
        (if 0 ≤ e2 then e2 else m2).toNat < cs.length
    · rw [if_pos hcond] at h
      obtain ⟨rfl, rfl⟩ : (if 0 ≤ e2 then e2 else m2).toNat = j ∧
          cs.set (if 0 ≤ e2 then e2 else m2).toNat (new_entry addr) = t2 := by
        constructor <;> [exact (Option.some_injective _ h ▸ rfl :
            ((if 0 ≤ e2 then e2 else m2).toNat,
              cs.set (if 0 ≤ e2 then e2 else m2).toNat (new_entry addr)).1 = j);
          exact (Option.some_injective _ h ▸ rfl :
            ((if 0 ≤ e2 then e2 else m2).toNat,
              cs.set (if 0 ≤ e2 then e2 else m2).toNat (new_entry addr)).2 = t2)]
      rw [List.length_set]
      exact ⟨hcond.2, rfl⟩
    · rw [if_neg hcond] at h
      exact absurd h (by simp)

/-- C3 (amended): behavior of add_IP_address on a table of
MAX_IP_ADDRESSES slots.  (1) An address match returns that slot, table
unmodified.  (2) Otherwise, with an empty slot available, an empty slot
is initialized to {addr, 1, false} and no other slot changes.  (3)
Otherwise — provided some occupied slot's count is below the INT_MAX
sentinel, the proviso the counterexample forces — the evicted slot is
the one with minimum count, ties to the lowest index, and no other slot
changes.  (4) Address uniqueness is preserved. -/
theorem C3_add_IP_address_spec (cs : List client_t) (addr : Nat)
    (hlen : cs.length = MAX_IP_ADDRESSES) :
    (∀ j, j < cs.length → (cs.getD j client0).ip_address = addr →
      (∀ i, i < j → (cs.getD i client0).ip_address ≠ addr) →
      add_IP_address cs addr = some (j, cs)) ∧
    ((∀ c ∈ cs, c.ip_address ≠ addr) → (∃ c ∈ cs, c.count = 0) →
      ∃ j, j < cs.length ∧ (cs.getD j client0).count = 0 ∧
        add_IP_address cs addr = some (j, cs.set j (new_entry addr)) ∧
        (cs.set j (new_entry addr)).getD j client0 = new_entry addr ∧
        (∀ i, i ≠ j →
          (cs.set j (new_entry addr)).getD i client0 = cs.getD i client0)) ∧
    ((∀ c ∈ cs, c.ip_address ≠ addr) → (∀ c ∈ cs, c.count ≠ 0) →
      (∃ c ∈ cs, c.count < INT_MAX) →
      ∃ j, j < cs.length ∧
        add_IP_address cs addr = some (j, cs.set j (new_entry addr)) ∧
        (∀ i, i < cs.length →
          (cs.getD j client0).count ≤ (cs.getD i client0).count) ∧
        (∀ i, i < j → (cs.getD j client0).count < (cs.getD i client0).count) ∧
        (∀ i, i ≠ j →
          (cs.set j (new_entry addr)).getD i client0 = cs.getD i client0)) ∧
    (table_uniq cs → ∀ j t2, add_IP_address cs addr = some (j, t2) →
      table_uniq t2) := by
  refine ⟨?_, ?_, ?_, ?_⟩
  · intro j hj hmatch hbefore
    exact add_IP_match_case cs addr j hj hmatch hbefore
  · intro hno hex
    obtain ⟨j, hj, hj0, heq⟩ := add_IP_empty_case cs addr hno hex
    exact ⟨j, hj, hj0, heq, getD_set_eq cs j _ hj,
      fun i hi => getD_set_ne cs j i _ hi⟩
  · intro hno hocc hex
    obtain ⟨j, hj, heq, hle, hstrict⟩ := add_IP_evict_case cs addr hno hocc hex
    exact ⟨j, hj, heq, hle, hstrict, fun i hi => getD_set_ne cs j i _ hi⟩
  · intro huniq j t2 hres
    rcases hR : add_scan addr cs 0 (-1) (-1) INT_MAX with ⟨o, e2, m2, mc2⟩
    cases o with
    | some k =>
      simp only [add_IP_address, hR] at hres
      obtain ⟨hk, hcs⟩ : k = j ∧ cs = t2 :=
        Prod.mk.injEq .. ▸ Option.some_inj.mp hres
      rw [← hcs]
      exact huniq
    | none =>
      have hno : ∀ c ∈ cs, c.ip_address ≠ addr :=
        add_scan_none_imp addr cs 0 (-1) (-1) INT_MAX (by rw [hR])
      simp only [add_IP_address, hR] at hres
      by_cases hcond : 0 ≤ (if 0 ≤ e2 then e2 else m2) ∧
          (if 0 ≤ e2 then e2 else m2).toNat < cs.length
      · rw [if_pos hcond] at hres
        obtain ⟨hk, hcs⟩ := Prod.mk.injEq .. ▸ Option.some_inj.mp hres
        rw [← hcs]
        intro a b ha hb hab
        rw [List.length_set] at ha hb
        set w := (if 0 ≤ e2 then e2 else m2).toNat with hw
        by_cases haw : a = w
        · have hbw : b ≠ w := fun hbw => hab (haw.trans hbw.symm)
          rw [haw, getD_set_eq cs w _ hcond.2, getD_set_ne cs w b _ hbw]
          exact fun hcontra =>
            hno (cs.getD b client0) (getD_mem_of_lt cs b hb) hcontra.symm
        · rw [getD_set_ne cs w a _ haw]
          by_cases hbw : b = w
          · rw [hbw, getD_set_eq cs w _ hcond.2]
            exact fun hcontra =>
              hno (cs.getD a client0) (getD_mem_of_lt cs a ha) hcontra
          · rw [getD_set_ne cs w b _ hbw]
            exact huniq a b ha hb hab
      · rw [if_neg hcond] at hres
        exact absurd hres (by simp)

/-- C3 witness: on an all-empty 25-slot table a fresh address is placed
into an empty slot (branch 2 of the theorem, hypotheses discharged
concretely). -/
theorem C3_add_IP_address_spec_witness :
    ∃ j, j < (List.replicate 25 client0).length ∧
      ((List.replicate 25 client0).getD j client0).count = 0 ∧
      add_IP_address (List.replicate 25 client0) 5 =
        some (j, (List.replicate 25 client0).set j (new_entry 5)) ∧
      ((List.replicate 25 client0).set j (new_entry 5)).getD j client0 =
        new_entry 5 ∧
      (∀ i, i ≠ j → ((List.replicate 25 client0).set j (new_entry 5)).getD
        i client0 = (List.replicate 25 client0).getD i client0) :=
  (C3_add_IP_address_spec (List.replicate 25 client0) 5
    (by decide)).2.1 (by decide) (by decide)

/-- C3 counterexample: the claim as stated promises that with no match
and no empty slot exactly one occupied slot is evicted; on a full table
whose every count equals the INT_MAX sentinel the strict less-than scan
never selects a victim (`min_ndx` stays -1) and the C code writes out of
bounds instead of evicting — modelled as `none`.  All slots here are
occupied, none matches the incoming address 3. -/
theorem C3_add_IP_address_counterexample :
    (∀ c ∈ List.replicate 25 (client_t.mk 7 INT_MAX false),
      c.ip_address ≠ 3 ∧ c.count ≠ 0) ∧
    add_IP_address (List.replicate 25 (client_t.mk 7 INT_MAX false)) 3 =
      none := by
  constructor
  · decide
  · decide

/-- C9 (amended): whenever the peer address is absent and at least one
slot is empty or has count below the INT_MAX sentinel, add_IP_address
selects an in-bounds slot (0 ≤ j < MAX_IP_ADDRESSES) and returns it. -/
theorem C9_add_IP_address_bounds (cs : List client_t) (addr : Nat)
    (hlen : cs.length = MAX_IP_ADDRESSES)
    (hno : ∀ c ∈ cs, c.ip_address ≠ addr)
    (hgood : ∃ c ∈ cs, c.count = 0 ∨ c.count < INT_MAX) :
    ∃ j t2, add_IP_address cs addr = some (j, t2) ∧ j < MAX_IP_ADDRESSES := by
  by_cases hex : ∃ c ∈ cs, c.count = 0
  · obtain ⟨j, hj, _, heq⟩ := add_IP_empty_case cs addr hno hex
    exact ⟨j, _, heq, hlen ▸ hj⟩
  · have hocc : ∀ c ∈ cs, c.count ≠ 0 := by
      intro x hx
      by_contra hxx
      exact hex ⟨x, hx, by simpa using hxx⟩
    have hex' : ∃ c ∈ cs, c.count < INT_MAX := by
      obtain ⟨c, hc, hc0⟩ := hgood
      rcases hc0 with h | h
      · exact absurd h (hocc c hc)
      · exact ⟨c, hc, h⟩
    obtain ⟨j, hj, heq, _, _⟩ := add_IP_evict_case cs addr hno hocc hex'
    exact ⟨j, _, heq, hlen ▸ hj⟩

/-- C9 witness: a full table of 25 occupied slots (addresses 100.., all
count 2 except slot 3 with count 1) and a fresh address: the theorem
applies and indeed slot 3 is evicted. -/
theorem C9_add_IP_address_bounds_witness :
    ∃ j t2, add_IP_address
      (List.replicate 3 (client_t.mk 100 2 false) ++
        client_t.mk 101 1 false :: List.replicate 21 (client_t.mk 102 2 false))
      44 = some (j, t2) ∧ j < MAX_IP_ADDRESSES :=
  C9_add_IP_address_bounds
    (List.replicate 3 (client_t.mk 100 2 false) ++
      client_t.mk 101 1 false :: List.replicate 21 (client_t.mk 102 2 false))
    44 (by decide) (by decide) (by decide)

/-- C9 counterexample: the claim asserts the selected index is in bounds
"including the corner case of a full table in which every occupied
slot's count is at least the INT_MAX sentinel"; exactly there the scan
leaves `min_ndx = -1` and the C code indexes `clients[-1]` — the model
returns `none` rather than any in-bounds slot. -/
theorem C9_add_IP_address_bounds_counterexample :
    (∀ c ∈ List.replicate 25 (client_t.mk 9 INT_MAX true),
      c.ip_address ≠ 4 ∧ INT_MAX ≤ c.count) ∧
    add_IP_address (List.replicate 25 (client_t.mk 9 INT_MAX true)) 4 =
      none := by
  constructor
  · decide
  · decide

/-- C10: per processed request, the requesting peer's record (as
returned by the add_IP_address lookup/create step) and the global
requests_processed counter are each incremented by exactly one — except
for GET /favicon.ico, where both are left exactly as the lookup left
them; no other slot changes in either case. -/
theorem C10_favicon_accounting (cs : List client_t) (addr : Nat)
    (rt : request_type_t) (reqs : Int) (ndx : Nat) (cl2 : List client_t)
    (h : add_IP_address cs addr = some (ndx, cl2)) :
    (rt = request_type_t.REQ_FAVICON →
      process_request_accounting cs addr rt reqs = some (ndx, cl2, reqs)) ∧
    (rt ≠ request_type_t.REQ_FAVICON →
      ∃ c, cl2.get? ndx = some c ∧
        process_request_accounting cs addr rt reqs =
          some (ndx, cl2.set ndx { c with count := c.count + 1 }, reqs + 1) ∧
        (cl2.set ndx { c with count := c.count + 1 }).getD ndx client0 =
          { c with count := c.count + 1 } ∧
        (∀ i, i ≠ ndx → (cl2.set ndx
          { c with count := c.count + 1 }).getD i client0 =
            cl2.getD i client0)) := by
  have hb := add_IP_some_bounds cs addr ndx cl2 h
  constructor
  · intro hrt
    simp [process_request_accounting, h, hrt]
  · intro hrt
    cases hg : cl2.get? ndx with
    | none =>
      have hlen := List.get?_eq_none.mp hg
      omega
    | some c =>
      refine ⟨c, rfl, ?_, ?_, ?_⟩
      · have hg' : cl2[ndx]? = some c := by
          rw [← List.get?_eq_getElem?]
          exact hg
        simp [process_request_accounting, h, if_neg hrt, hg']
      · exact getD_set_eq cl2 ndx _ hb.1
      · intro i hi
        exact getD_set_ne cl2 ndx i _ hi
/-- C10 witness: a root request from a fresh peer on an all-empty table
bumps the created record's count from 1 to 2 and requests_processed from
0 to 1. -/
theorem C10_favicon_accounting_witness :
    ∃ c, ((List.replicate 25 client0).set 24 (new_entry 5)).get? 24 =
        some c ∧
      process_request_accounting (List.replicate 25 client0) 5
          request_type_t.REQ_ROOT 0 =
        some (24, ((List.replicate 25 client0).set 24 (new_entry 5)).set 24
          { c with count := c.count + 1 }, 0 + 1) ∧
      (((List.replicate 25 client0).set 24 (new_entry 5)).set 24
          { c with count := c.count + 1 }).getD 24 client0 =
        { c with count := c.count + 1 } ∧
      (∀ i, i ≠ 24 → (((List.replicate 25 client0).set 24
          (new_entry 5)).set 24 { c with count := c.count + 1 }).getD i
            client0 =
        ((List.replicate 25 client0).set 24 (new_entry 5)).getD i client0) :=
  (C10_favicon_accounting (List.replicate 25 client0) 5
    request_type_t.REQ_ROOT 0 24
    ((List.replicate 25 client0).set 24 (new_entry 5))
    (by decide)).2 (by decide)

/-- C7: connectivity invariants of one process_web step.  (a) A
transition from WEB_NOT_CONNECTED to WEB_AWAITING_CONNECTION happens
only once now() has reached next_connect_time; (b) every transition into
WEB_NOT_CONNECTED from another state sets next_connect_time to
now + CONNECT_DELAY_SECS; (c) before the retry deadline the Disconnected
state does nothing at all. -/
theorem C7_retry_deadline_invariant (s : WebState) (inp : WebInput) :
    (s.web_status = web_status_t.WEB_NOT_CONNECTED →
      (process_web s inp).1.web_status = web_status_t.WEB_AWAITING_CONNECTION →
      inp.now ≥ s.next_connect_time) ∧
    (s.web_status ≠ web_status_t.WEB_NOT_CONNECTED →
      (process_web s inp).1.web_status = web_status_t.WEB_NOT_CONNECTED →
      (process_web s inp).1.next_connect_time =
        inp.now + CONNECT_DELAY_SECS) ∧
    (s.web_status = web_status_t.WEB_NOT_CONNECTED →
      inp.now < s.next_connect_time → (process_web s inp).1 = s) := by
  by_cases hp : (inp.have_power && inp.power_delay_ok) = true
  · refine ⟨?_, ?_, ?_⟩
    · intro h1 h2
      by_cases hn : inp.now ≥ s.next_connect_time
      · exact hn
      · simp [process_web, hp, h1, hn] at h2
    · intro h1 h2
      rcases hs : s.web_status with h | h | h | h
      · exact absurd hs h1
      · rcases hw : inp.wl_status with h | h | h
        · simp [process_web, hp, hs, hw] at h2
        · simp [process_web, hp, hs, hw] at h2
        · simp [process_web, hp, hs, hw]
      · by_cases hw : inp.wl_status = wl_status_t.WL_CONNECTED
        · by_cases hc : inp.client_available = true
          · by_cases hd : inp.request_defers = true
            · simp [process_web, hp, hs, hw, hc, hd] at h2
            · simp [process_web, hp, hs, hw, hc, hd] at h2
          · by_cases ht : inp.ifttt_do_trigger = true
            · simp [process_web, hp, hs, hw, hc, ht] at h2
            · simp [process_web, hp, hs, hw, hc, ht] at h2
        · simp [process_web, hp, hs, hw]
      · by_cases hm : inp.millis > s.delayed_sendtime
        · simp [process_web, hp, hs, hm] at h2
        · simp [process_web, hp, hs, hm] at h2
    · intro h1 hn
      have hn' : ¬inp.now ≥ s.next_connect_time := by omega
      simp [process_web, hp, h1, hn']
  · refine ⟨?_, ?_, ?_⟩
    · intro h1 h2
      simp [process_web, hp] at h2
      rw [h1] at h2
      exact absurd h2 (by decide)
    · intro h1 h2
      simp [process_web, hp] at h2
      exact absurd h2 h1
    · intro _ _
      simp [process_web, hp]

/-- C7 witness: a concrete Disconnected state one tick before its retry
deadline stays put, and a concrete failure transition stamps the retry
deadline. -/
theorem C7_retry_deadline_invariant_witness :
    (process_web
      (WebState.mk web_status_t.WEB_NOT_CONNECTED 0 50 0 0 0 0 false 0
        (List.replicate 7 false))
      (WebInput.mk true true 49 0 wl_status_t.WL_IDLE_STATUS false false
        false)).1 =
      WebState.mk web_status_t.WEB_NOT_CONNECTED 0 50 0 0 0 0 false 0
        (List.replicate 7 false) ∧
    (process_web
      (WebState.mk web_status_t.WEB_AWAITING_CONNECTION 1 50 0 0 0 0 false 0
        (List.replicate 7 false))
      (WebInput.mk true true 60 0 wl_status_t.WL_OTHER false false
        false)).1.next_connect_time = 60 + CONNECT_DELAY_SECS := by
  constructor
  · exact (C7_retry_deadline_invariant
      (WebState.mk web_status_t.WEB_NOT_CONNECTED 0 50 0 0 0 0 false 0
        (List.replicate 7 false))
      (WebInput.mk true true 49 0 wl_status_t.WL_IDLE_STATUS false false
        false)).2.2 (by decide) (by decide)
  · exact (C7_retry_deadline_invariant
      (WebState.mk web_status_t.WEB_AWAITING_CONNECTION 1 50 0 0 0 0 false 0
        (List.replicate 7 false))
      (WebInput.mk true true 60 0 wl_status_t.WL_OTHER false false
        false)).2.1 (by decide) (by decide)

/-- C8: inbound service is never deferred in favor of outbound delivery.
A trigger send can only happen in a cycle with no inbound client
available, and whenever an inbound client is present in
WEB_AWAITING_CLIENT (with the network up and power on) that cycle serves
the client. -/
theorem C8_inbound_never_starved (s : WebState) (inp : WebInput) :
    ((process_web s inp).2 = some WebAction.sent_trigger →
      inp.client_available = false ∧
      s.web_status = web_status_t.WEB_AWAITING_CLIENT ∧
      inp.wl_status = wl_status_t.WL_CONNECTED ∧
      inp.ifttt_do_trigger = true) ∧
    (s.web_status = web_status_t.WEB_AWAITING_CLIENT →
      inp.have_power = true → inp.power_delay_ok = true →
      inp.wl_status = wl_status_t.WL_CONNECTED →
      inp.client_available = true →
      (process_web s inp).2 = some WebAction.served_client) := by
  constructor
  · intro h2
    by_cases hp : (inp.have_power && inp.power_delay_ok) = true
    · rcases hs : s.web_status with h | h | h | h
      · by_cases hn : inp.now ≥ s.next_connect_time
        · simp [process_web, hp, hs, hn] at h2
        · simp [process_web, hp, hs, hn] at h2
      · rcases hw : inp.wl_status with h | h | h <;>
          simp [process_web, hp, hs, hw] at h2
      · by_cases hw : inp.wl_status = wl_status_t.WL_CONNECTED
        · by_cases hc : inp.client_available = true
          · by_cases hd : inp.request_defers = true <;>
              simp [process_web, hp, hs, hw, hc, hd] at h2
          · by_cases ht : inp.ifttt_do_trigger = true
            · exact ⟨by simpa using hc, rfl, hw, ht⟩
            · simp [process_web, hp, hs, hw, hc, ht] at h2
        · simp [process_web, hp, hs, hw] at h2
      · by_cases hm : inp.millis > s.delayed_sendtime <;>
          simp [process_web, hp, hs, hm] at h2
    · simp [process_web, hp] at h2
  · intro hs hpw hpok hw hc
    have hp : (inp.have_power && inp.power_delay_ok) = true := by
      rw [hpw, hpok]
      rfl
    by_cases hd : inp.request_defers = true <;>
      simp [process_web, hp, hs, hw, hc, hd]

/-- C8 witness: in WEB_AWAITING_CLIENT with both an inbound client and a
queued trigger, the cycle serves the client. -/
theorem C8_inbound_never_starved_witness :
    (process_web
      (WebState.mk web_status_t.WEB_AWAITING_CLIENT 0 0 1 0 0 0 false 0
        (List.replicate 7 false))
      (WebInput.mk true true 5 5 wl_status_t.WL_CONNECTED true true
        false)).2 = some WebAction.served_client :=
  (C8_inbound_never_starved
    (WebState.mk web_status_t.WEB_AWAITING_CLIENT 0 0 1 0 0 0 false 0
      (List.replicate 7 false))
    (WebInput.mk true true 5 5 wl_status_t.WL_CONNECTED true true
      false)).2 (by decide) (by decide) (by decide) (by decide) (by decide)

/-- C6: starting Disconnected with the attempt counter at zero, three
(= MAX_CONNECT_ATTEMPTS) association attempts each ending in failure
perform exactly one module reset, at the third failure: the first two
failures leave wifi_resets untouched, the third increments it by exactly
one and zeroes the attempt counter, and every failure stamps
next_connect_time = now + CONNECT_DELAY_SECS and returns to
WEB_NOT_CONNECTED. -/
theorem C6_three_failures_one_reset (s0 : WebState)
    (i1 i2 i3 i4 i5 i6 : WebInput)
    (hs : s0.web_status = web_status_t.WEB_NOT_CONNECTED)
    (ha : s0.connect_attempts = 0)
    (hp1 : i1.have_power = true) (hq1 : i1.power_delay_ok = true)
    (hp2 : i2.have_power = true) (hq2 : i2.power_delay_ok = true)
    (hp3 : i3.have_power = true) (hq3 : i3.power_delay_ok = true)
    (hp4 : i4.have_power = true) (hq4 : i4.power_delay_ok = true)
    (hp5 : i5.have_power = true) (hq5 : i5.power_delay_ok = true)
    (hp6 : i6.have_power = true) (hq6 : i6.power_delay_ok = true)
    (hw2 : i2.wl_status = wl_status_t.WL_OTHER)
    (hw4 : i4.wl_status = wl_status_t.WL_OTHER)
    (hw6 : i6.wl_status = wl_status_t.WL_OTHER)
    (hn1 : i1.now ≥ s0.next_connect_time)
    (hn3 : i3.now ≥ i2.now + CONNECT_DELAY_SECS)
    (hn5 : i5.now ≥ i4.now + CONNECT_DELAY_SECS) :
    (run_web s0 [i1, i2]).wifi_resets = s0.wifi_resets ∧
    (run_web s0 [i1, i2]).web_status = web_status_t.WEB_NOT_CONNECTED ∧
    (run_web s0 [i1, i2]).next_connect_time = i2.now + CONNECT_DELAY_SECS ∧
    (run_web s0 [i1, i2, i3, i4]).wifi_resets = s0.wifi_resets ∧
    (run_web s0 [i1, i2, i3, i4]).web_status =
      web_status_t.WEB_NOT_CONNECTED ∧
    (run_web s0 [i1, i2, i3, i4]).next_connect_time =
      i4.now + CONNECT_DELAY_SECS ∧
    (run_web s0 [i1, i2, i3, i4, i5, i6]).wifi_resets = s0.wifi_resets + 1 ∧
    (run_web s0 [i1, i2, i3, i4, i5, i6]).connect_attempts = 0 ∧
    (run_web s0 [i1, i2, i3, i4, i5, i6]).web_status =
      web_status_t.WEB_NOT_CONNECTED ∧
    (run_web s0 [i1, i2, i3, i4, i5, i6]).next_connect_time =
      i6.now + CONNECT_DELAY_SECS := by
  have e1 : (process_web s0 i1).1 = { s0 with
      connect_attempts := s0.connect_attempts + 1
      web_status := web_status_t.WEB_AWAITING_CONNECTION } := by
    simp [process_web, hp1, hq1, hs, hn1]
  have e2 : (process_web (process_web s0 i1).1 i2).1 = { s0 with
      connect_attempts := s0.connect_attempts + 1
      wifi_connectfails := s0.wifi_connectfails + 1
      next_connect_time := i2.now + CONNECT_DELAY_SECS
      web_status := web_status_t.WEB_NOT_CONNECTED } := by
    rw [e1]
    simp [process_web, hp2, hq2, hw2, MAX_CONNECT_ATTEMPTS, ha]
  have e3 : (process_web (process_web (process_web s0 i1).1 i2).1 i3).1 =
      { s0 with
        connect_attempts := s0.connect_attempts + 1 + 1
        wifi_connectfails := s0.wifi_connectfails + 1
        next_connect_time := i2.now + CONNECT_DELAY_SECS
        web_status := web_status_t.WEB_AWAITING_CONNECTION } := by
    rw [e2]
    simp [process_web, hp3, hq3, hn3]
  have e4 : (process_web (process_web (process_web
      (process_web s0 i1).1 i2).1 i3).1 i4).1 = { s0 with
        connect_attempts := s0.connect_attempts + 1 + 1
        wifi_connectfails := s0.wifi_connectfails + 1 + 1
        next_connect_time := i4.now + CONNECT_DELAY_SECS
        web_status := web_status_t.WEB_NOT_CONNECTED } := by
    rw [e3]
    simp [process_web, hp4, hq4, hw4, MAX_CONNECT_ATTEMPTS, ha]
  have e5 : (process_web (process_web (process_web (process_web
      (process_web s0 i1).1 i2).1 i3).1 i4).1 i5).1 = { s0 with
        connect_attempts := s0.connect_attempts + 1 + 1 + 1
        wifi_connectfails := s0.wifi_connectfails + 1 + 1
        next_connect_time := i4.now + CONNECT_DELAY_SECS
        web_status := web_status_t.WEB_AWAITING_CONNECTION } := by
    rw [e4]
    simp [process_web, hp5, hq5, hn5]
  have e6 : (process_web (process_web (process_web (process_web
      (process_web (process_web s0 i1).1 i2).1 i3).1 i4).1 i5).1 i6).1 =
      { s0 with
        connect_attempts := 0
        wifi_connectfails := s0.wifi_connectfails + 1 + 1 + 1
        wifi_resets := s0.wifi_resets + 1
        next_connect_time := i6.now + CONNECT_DELAY_SECS
        web_status := web_status_t.WEB_NOT_CONNECTED } := by
    rw [e5]
    simp [process_web, hp6, hq6, hw6, MAX_CONNECT_ATTEMPTS, ha]
  have r2 : run_web s0 [i1, i2] =
      (process_web (process_web s0 i1).1 i2).1 := rfl
  have r4 : run_web s0 [i1, i2, i3, i4] =
      (process_web (process_web (process_web
        (process_web s0 i1).1 i2).1 i3).1 i4).1 := rfl
  have r6 : run_web s0 [i1, i2, i3, i4, i5, i6] =
      (process_web (process_web (process_web (process_web
        (process_web (process_web s0 i1).1 i2).1 i3).1 i4).1 i5).1 i6).1 :=
    rfl
  rw [r2, r4, r6, e6, e4, e2]
  simp

/-- C6 witness: a concrete initial state and six concrete cycles (three
attempts, three failures) showing one reset at the end. -/
theorem C6_three_failures_one_reset_witness :
    (run_web
      (WebState.mk web_status_t.WEB_NOT_CONNECTED 0 0 0 0 0 0 false 0
        (List.replicate 7 false))
      [WebInput.mk true true 1 0 wl_status_t.WL_IDLE_STATUS false false false,
       WebInput.mk true true 2 0 wl_status_t.WL_OTHER false false false,
       WebInput.mk true true 12 0 wl_status_t.WL_IDLE_STATUS false false false,
       WebInput.mk true true 13 0 wl_status_t.WL_OTHER false false false,
       WebInput.mk true true 23 0 wl_status_t.WL_IDLE_STATUS false false false,
       WebInput.mk true true 24 0 wl_status_t.WL_OTHER false false false]
      ).wifi_resets = 0 + 1 ∧
    (run_web
      (WebState.mk web_status_t.WEB_NOT_CONNECTED 0 0 0 0 0 0 false 0
        (List.replicate 7 false))
      [WebInput.mk true true 1 0 wl_status_t.WL_IDLE_STATUS false false false,
       WebInput.mk true true 2 0 wl_status_t.WL_OTHER false false false,
       WebInput.mk true true 12 0 wl_status_t.WL_IDLE_STATUS false false false,
       WebInput.mk true true 13 0 wl_status_t.WL_OTHER false false false,
       WebInput.mk true true 23 0 wl_status_t.WL_IDLE_STATUS false false false,
       WebInput.mk true true 24 0 wl_status_t.WL_OTHER false false false]
      ).connect_attempts = 0 := by
  have h := C6_three_failures_one_reset
    (WebState.mk web_status_t.WEB_NOT_CONNECTED 0 0 0 0 0 0 false 0
      (List.replicate 7 false))
    (WebInput.mk true true 1 0 wl_status_t.WL_IDLE_STATUS false false false)
    (WebInput.mk true true 2 0 wl_status_t.WL_OTHER false false false)
    (WebInput.mk true true 12 0 wl_status_t.WL_IDLE_STATUS false false false)
    (WebInput.mk true true 13 0 wl_status_t.WL_OTHER false false false)
    (WebInput.mk true true 23 0 wl_status_t.WL_IDLE_STATUS false false false)
    (WebInput.mk true true 24 0 wl_status_t.WL_OTHER false false false)
    rfl rfl rfl rfl rfl rfl rfl rfl rfl rfl rfl rfl rfl rfl rfl rfl rfl
    (by decide) (by decide) (by decide)
  exact ⟨h.2.2.2.2.2.2.1, h.2.2.2.2.2.2.2.1⟩

/-- A line accepted by the button scanner carries an in-range index. -/
theorem scan_button_line_le (line : List Char) (i : Nat)
    (h : scan_button_line line = some i) : i ≤ NUM_BUTTONS - 1 := by
  by_cases h1 : line.take BUTTON_KEY.length = BUTTON_KEY
  · cases hp : parse_digits (line.drop BUTTON_KEY.length) with
    | none => simp [scan_button_line, h1, hp] at h
    | some k =>
      by_cases h2 : k ≤ NUM_BUTTONS - 1
      · simp [scan_button_line, h1, hp, h2] at h
        exact h ▸ h2
      · simp [scan_button_line, h1, hp, h2] at h
  · simp [scan_button_line, h1] at h

/-- A body with no valid button line leaves the pushbutton loop's state
and response untouched. -/
theorem pushbutton_loop_nomatch (gave : Bool) (millis : Nat) :
    ∀ (body : List (List Char)) (st : WebState) (rsp : response_type_t),
    body.filterMap scan_button_line = [] →
    pushbutton_loop gave millis body st rsp = (st, rsp) := by
  intro body
  induction body with
  | nil =>
    intro st rsp _
    rfl
  | cons l rest ih =>
    intro st rsp h
    cases hscan : scan_button_line l with
    | some j =>
      rw [List.filterMap_cons_some hscan] at h
      exact absurd h (by simp)
    | none =>
      rw [List.filterMap_cons_none hscan] at h
      simp only [pushbutton_loop, hscan]
      exact ih st rsp h

/-- An unauthorized peer never changes the state through the pushbutton
loop, whatever the body. -/
theorem pushbutton_loop_unauth (millis : Nat) :
    ∀ (body : List (List Char)) (st : WebState) (rsp : response_type_t),
    (pushbutton_loop false millis body st rsp).1 = st := by
  intro body
  induction body with
  | nil =>
    intro st rsp
    rfl
  | cons l rest ih =>
    intro st rsp
    cases hscan : scan_button_line l with
    | some j =>
      simp only [pushbutton_loop, hscan, Bool.false_eq_true, if_false]
      exact ih st _
    | none =>
      simp only [pushbutton_loop, hscan]
      exact ih st rsp

/-- A body whose unique valid button line carries index `i` drives the
pushbutton loop to: queue exactly that push with response RSP_NONE when
the peer is authorized, or leave the state alone with response
RSP_ASKPASS when not. -/
theorem pushbutton_loop_single (gave : Bool) (millis : Nat) (i : Nat) :
    ∀ (body : List (List Char)) (st : WebState) (rsp : response_type_t),
    body.filterMap scan_button_line = [i] →
    pushbutton_loop gave millis body st rsp =
      (if gave then queue_button_push i millis st else st,
       if gave then response_type_t.RSP_NONE
       else response_type_t.RSP_ASKPASS) := by
  intro body
  induction body with
  | nil =>
    intro st rsp h
    exact absurd h (by simp)
  | cons l rest ih =>
    intro st rsp h
    cases hscan : scan_button_line l with
    | none =>
      rw [List.filterMap_cons_none hscan] at h
      simp only [pushbutton_loop, hscan]
      exact ih st rsp h
    | some j =>
      rw [List.filterMap_cons_some hscan] at h
      obtain ⟨rfl, hrest⟩ : j = i ∧ rest.filterMap scan_button_line = [] := by
        constructor <;> [exact (List.cons_eq_cons.mp h).1;
          exact (List.cons_eq_cons.mp h).2]
      cases gave with
      | false =>
        simp only [pushbutton_loop, hscan, Bool.false_eq_true, if_false]
        rw [pushbutton_loop_nomatch false millis rest st
          response_type_t.RSP_ASKPASS hrest]
      | true =>
        simp only [pushbutton_loop, hscan, if_true]
        rw [pushbutton_loop_nomatch true millis rest _
          response_type_t.RSP_NONE hrest]

/-- C1: on a POST /pushbutton.html whose body carries the single valid
field button=i (the form the status page submits): an unauthorized peer
never queues anything — for any body at all the state is untouched — and
receives the password form; an authorized peer queues exactly button i,
arms the delayed-response scheduler at millis + DELAYED_RSP_MSEC, gets
no response that cycle; and any later process_web step in
WEB_PROCESSING_REQUEST whose millis reading exceeds the armed deadline
emits the status response. -/
theorem C1_pushbutton_authorization (millis : Nat) (body : List (List Char))
    (st : WebState) (i : Nat)
    (hone : body.filterMap scan_button_line = [i])
    (hlen : st.button_webpushed.length = NUM_BUTTONS) :
    (∀ body2, (pushbutton_request false millis body2 st).1 = st) ∧
    pushbutton_request false millis body st =
      (st, some response_type_t.RSP_ASKPASS) ∧
    pushbutton_request true millis body st =
      (queue_button_push i millis st, none) ∧
    (queue_button_push i millis st).button_webpushed[i]? = some true ∧
    (∀ j, j ≠ i → (queue_button_push i millis st).button_webpushed[j]? =
      st.button_webpushed[j]?) ∧
    (queue_button_push i millis st).delayed_response = true ∧
    (queue_button_push i millis st).delayed_sendtime =
      millis + DELAYED_RSP_MSEC ∧
    (∀ (s2 : WebState) (inp : WebInput),
      s2.web_status = web_status_t.WEB_PROCESSING_REQUEST →
      inp.have_power = true → inp.power_delay_ok = true →
      inp.millis > s2.delayed_sendtime →
      (process_web s2 inp).2 = some WebAction.generated_status_response) := by
  have hne : body ≠ [] := by
    intro hb
    rw [hb] at hone
    exact absurd hone (by simp)
  have hbe : body.isEmpty = false := by
    cases body with
    | nil => exact absurd rfl hne
    | cons _ _ => rfl
  have hi : i < st.button_webpushed.length := by
    have hmem : i ∈ body.filterMap scan_button_line := by
      rw [hone]
      exact List.mem_singleton.mpr rfl
    obtain ⟨line, _, hscan⟩ := List.mem_filterMap.mp hmem
    have hle := scan_button_line_le line i hscan
    rw [hlen]
    revert hle
    simp [NUM_BUTTONS]
    omega
  refine ⟨?_, ?_, ?_, ?_, ?_, rfl, rfl, ?_⟩
  · intro body2
    by_cases hb2 : body2.isEmpty
    · simp [pushbutton_request, process_pushbutton, hb2]
    · simp only [pushbutton_request, process_pushbutton, hb2,
        Bool.false_eq_true, if_false]
      exact pushbutton_loop_unauth millis body2 st response_type_t.RSP_UNKNOWN
  · simp only [pushbutton_request, process_pushbutton, hbe,
      Bool.false_eq_true, if_false]
    rw [pushbutton_loop_single false millis i body st
      response_type_t.RSP_UNKNOWN hone]
    simp
  · simp only [pushbutton_request, process_pushbutton, hbe,
      Bool.false_eq_true, if_false]
    rw [pushbutton_loop_single true millis i body st
      response_type_t.RSP_UNKNOWN hone]
    simp [queue_button_push]
  · simp only [queue_button_push]
    exact List.getElem?_set_eq_of_lt true hi
  · intro j hj
    simp only [queue_button_push]
    exact List.getElem?_set_ne (fun hc => hj hc.symm)
  · intro s2 inp h1 h2 h3 h4
    have hp : (inp.have_power && inp.power_delay_ok) = true := by
      rw [h2, h3]
      rfl
    simp [process_web, hp, h1, h4]

/-- C1 witness: a concrete authorized pushbutton request for button 2
queues exactly that button with no immediate response, and a concrete
deferred cycle past the deadline emits the status response; the
unauthorized variants leave the state alone and ask for the password. -/
theorem C1_pushbutton_authorization_witness :
    pushbutton_request false 5
      [['b', 'u', 't', 't', 'o', 'n', '=', '2']]
      (WebState.mk web_status_t.WEB_AWAITING_CLIENT 0 0 0 0 0 0 false 0
        (List.replicate 7 false)) =
      (WebState.mk web_status_t.WEB_AWAITING_CLIENT 0 0 0 0 0 0 false 0
        (List.replicate 7 false), some response_type_t.RSP_ASKPASS) ∧
    pushbutton_request true 5
      [['b', 'u', 't', 't', 'o', 'n', '=', '2']]
      (WebState.mk web_status_t.WEB_AWAITING_CLIENT 0 0 0 0 0 0 false 0
        (List.replicate 7 false)) =
      (queue_button_push 2 5
        (WebState.mk web_status_t.WEB_AWAITING_CLIENT 0 0 0 0 0 0 false 0
          (List.replicate 7 false)), none) ∧
    (process_web
      (WebState.mk web_status_t.WEB_PROCESSING_REQUEST 0 0 0 0 0 0 true 1005
        (List.replicate 7 false))
      (WebInput.mk true true 9 1006 wl_status_t.WL_CONNECTED false false
        false)).2 = some WebAction.generated_status_response := by
  have h := C1_pushbutton_authorization 5
    [['b', 'u', 't', 't', 'o', 'n', '=', '2']]
    (WebState.mk web_status_t.WEB_AWAITING_CLIENT 0 0 0 0 0 0 false 0
      (List.replicate 7 false)) 2 (by decide) (by decide)
  exact ⟨h.2.1, h.2.2.1,
    h.2.2.2.2.2.2.2
      (WebState.mk web_status_t.WEB_PROCESSING_REQUEST 0 0 0 0 0 0 true 1005
        (List.replicate 7 false))
      (WebInput.mk true true 9 1006 wl_status_t.WL_CONNECTED false false
        false) rfl rfl rfl (by decide)⟩

/-- The authorization flag after the setpass loop: its old value or-ed
with "some body line matched the password field" — once set it is never
cleared by later lines. -/
theorem setpass_loop_gave : ∀ (body : List (List Char)) (gave : Bool)
    (rsp : response_type_t),
    (setpass_loop gave rsp body).1 = (gave || body.any pwd_line_matches) := by
  intro body
  induction body with
  | nil =>
    intro gave rsp
    simp [setpass_loop]
  | cons l rest ih =>
    intro gave rsp
    by_cases hm : pwd_line_matches l = true
    · simp only [setpass_loop, hm, if_true, List.any_cons, Bool.true_or]
      rw [ih]
      simp
    · have hm' : pwd_line_matches l = false := by
        revert hm
        cases pwd_line_matches l <;> simp
      simp only [setpass_loop, hm', Bool.false_eq_true, if_false,
        List.any_cons, Bool.false_or]
      exact ih gave response_type_t.RSP_ASKPASS

/-- The response after the setpass loop over a nonempty body is decided
by the last body line alone. -/
theorem setpass_loop_last : ∀ (body : List (List Char)) (gave : Bool)
    (rsp : response_type_t) (l : List Char), body.getLast? = some l →
    (setpass_loop gave rsp body).2 =
      (if pwd_line_matches l then response_type_t.RSP_STATUS
       else response_type_t.RSP_ASKPASS) := by
  intro body
  induction body with
  | nil =>
    intro gave rsp l h
    exact absurd h (by simp)
  | cons x rest ih =>
    intro gave rsp l h
    cases rest with
    | nil =>
      obtain rfl : x = l := by simpa using h
      by_cases hm : pwd_line_matches x = true
      · simp [setpass_loop, hm]
      · have hm' : pwd_line_matches x = false := by
          revert hm
          cases pwd_line_matches x <;> simp
        simp [setpass_loop, hm']
    | cons y ys =>
      have h' : (y :: ys).getLast? = some l := by
        rw [List.getLast?_cons_cons] at h
        exact h
      by_cases hm : pwd_line_matches x = true
      · simp only [setpass_loop, hm, if_true]
        exact ih true response_type_t.RSP_STATUS l h'
      · have hm' : pwd_line_matches x = false := by
          revert hm
          cases pwd_line_matches x <;> simp
        simp only [setpass_loop, hm', Bool.false_eq_true, if_false]
        exact ih gave response_type_t.RSP_ASKPASS l h'

/-- C5 (amended): the setpass route sets the peer's gave_password flag
iff some body line matches pwd=&lt;secret&gt; (exact string equality with
ACTION_PASSWORD; an already-authorized peer stays authorized), but the
rendered response is decided by the LAST body line: the status page iff
that line matches, the password form otherwise — a trailing non-matching
line overrides the response even though the peer was just authorized; an
empty body draws the unknown-request diagnostic. -/
theorem C5_setpass_password (gave : Bool) (body : List (List Char)) :
    (process_setpass gave body).1 = (gave || body.any pwd_line_matches) ∧
    (body = [] →
      (process_setpass gave body).2 = response_type_t.RSP_UNKNOWN) ∧
    (∀ l, body.getLast? = some l →
      (process_setpass gave body).2 =
        (if pwd_line_matches l then response_type_t.RSP_STATUS
         else response_type_t.RSP_ASKPASS)) := by
  refine ⟨setpass_loop_gave body gave response_type_t.RSP_UNKNOWN, ?_, ?_⟩
  · intro h
    rw [h]
    rfl
  · intro l hl
    exact setpass_loop_last body gave response_type_t.RSP_UNKNOWN l hl

/-- C5 witness: the single-line body pwd=password authorizes the peer
and renders the status page. -/
theorem C5_setpass_password_witness :
    (process_setpass false
      [['p', 'w', 'd', '=', 'p', 'a', 's', 's', 'w', 'o', 'r', 'd']]).1 =
      true ∧
    (process_setpass false
      [['p', 'w', 'd', '=', 'p', 'a', 's', 's', 'w', 'o', 'r', 'd']]).2 =
      response_type_t.RSP_STATUS := by
  have h := C5_setpass_password false
    [['p', 'w', 'd', '=', 'p', 'a', 's', 's', 'w', 'o', 'r', 'd']]
  constructor
  · rw [h.1]
    decide
  · rw [h.2.2 ['p', 'w', 'd', '=', 'p', 'a', 's', 's', 'w', 'o', 'r', 'd']
      (by decide)]
    decide

/-- C5 counterexample: the claim says the status page is rendered
whenever some body line matches, "including bodies with additional lines
after the pwd line".  A body whose correct pwd line is followed by one
more line authorizes the peer but renders the password form, because the
loop's else-arm overwrites the response on every non-matching line. -/
theorem C5_setpass_password_counterexample :
    pwd_line_matches
      ['p', 'w', 'd', '=', 'p', 'a', 's', 's', 'w', 'o', 'r', 'd'] = true ∧
    process_setpass false
      [['p', 'w', 'd', '=', 'p', 'a', 's', 's', 'w', 'o', 'r', 'd'],
       ['x']] = (true, response_type_t.RSP_ASKPASS) ∧
    response_type_t.RSP_ASKPASS ≠ response_type_t.RSP_STATUS := by
  refine ⟨by decide, by decide, by decide⟩
